import Mathlib

/-!
A shallow embedding of the core ray-tracing pipeline of `src/code.js`
(the `craytracer` repository).

Modelling conventions:
* JavaScript floating-point numbers are modelled as real numbers.
* The `Infinity` sentinel returned by the intersection routines is modelled
  by `Option ℝ`: `none` stands for `Infinity`, `some t` for a finite
  distance `t`.  Consequently the record `{object: null, t: Infinity}`
  returned by `closestIntersection` is `none`, and `{object: o, t: t}` is
  `some (i, o, t)` where `i` is the index of `o` in `scene.objects`
  (JavaScript reference identity inside the scene list is modelled by that
  index; every `new`-constructed object in the list is a distinct
  reference, and the only references ever compared are the ones the
  closest-intersection scan itself produced from the list).
* The stream of values produced by successive calls of `Vector3.random`
  (the accepted samples of the rejection loop) is modelled by a function
  `rnd : ℕ → Vector3` together with an explicit cursor `k` that every
  consumer threads through: `Material.prototype.scatter` reads `rnd k` and
  hands `k + 1` on to the recursive trace.
* The global mutable `scene` object is passed explicitly as a `Scene`
  value; `scene.image.zero_tol` is passed to the primitive intersection
  routines as the parameter `eps`.
-/

noncomputable section

namespace Craytracer

open Classical

/-- JS `Vector3`: a triple of reals, used interchangeably as position,
direction and RGB color. -/
@[ext]
structure Vector3 where
  x : ℝ
  y : ℝ
  z : ℝ

namespace Vector3

/-- JS `Vector3.prototype.add`: componentwise sum, returning a new vector. -/
def add (v w : Vector3) : Vector3 := ⟨v.x + w.x, v.y + w.y, v.z + w.z⟩

/-- JS `Vector3.prototype.times`: scalar multiple. -/
def times (v : Vector3) (s : ℝ) : Vector3 := ⟨s * v.x, s * v.y, s * v.z⟩

/-- JS `Vector3.prototype.subtract`: `this.add(vector.times(-1))`. -/
def subtract (v w : Vector3) : Vector3 := v.add (w.times (-1))

/-- JS `Vector3.prototype.divide`: `scalar = 1/scalar; this.times(scalar)`. -/
def divide (v : Vector3) (s : ℝ) : Vector3 := v.times (1 / s)

/-- JS `Vector3.prototype.cross`. -/
def cross (v w : Vector3) : Vector3 :=
  ⟨v.y * w.z - v.z * w.y, v.z * w.x - v.x * w.z, v.x * w.y - v.y * w.x⟩

/-- JS `Vector3.prototype.inner`: the dot product. -/
def inner (v w : Vector3) : ℝ := v.x * w.x + v.y * w.y + v.z * w.z

/-- JS `Vector3.prototype.norm`: `Math.sqrt(this.inner(this))`. -/
def norm (v : Vector3) : ℝ := Real.sqrt (v.inner v)

/-- JS `Vector3.prototype.normalize`:
`norm != 0 ? this.divide(this.norm()) : this`. -/
def normalize (v : Vector3) : Vector3 :=
  if v.norm ≠ 0 then v.divide v.norm else v

end Vector3

/-- JS `Ray`: record with an origin and a direction field. -/
structure Ray where
  origin : Vector3
  direction : Vector3

/-- The JS `Ray` constructor: stores the origin and the *normalized*
direction (`this.direction = direction.normalize()`). -/
def mkRay (origin direction : Vector3) : Ray :=
  ⟨origin, direction.normalize⟩

/-- JS `Ray.prototype.at`: `origin.add(direction.times(t))`. -/
def Ray.at (r : Ray) (t : ℝ) : Vector3 :=
  r.origin.add (r.direction.times t)

/-- JS `Material`: per-surface weights and base color.  Constructor argument
order is `(diffuse, specular, ambient, color)`. -/
structure Material where
  diffuse : ℝ
  specular : ℝ
  ambient : ℝ
  color : Vector3

/-- JS `Material.reflect`: `v.subtract(normal.times(2*normal.inner(v)))`. -/
def Material.reflect (v normal : Vector3) : Vector3 :=
  v.subtract (normal.times (2 * normal.inner v))

/-- JS `Light`: a point light (the UI-only `id` string is omitted; identity
of scene entries is by index). -/
structure Light where
  position : Vector3
  intensity : ℝ

/-- The scene primitives: JS `Sphere` (center position, radius, material)
and `Plane` (position, plane normal `normalVec`, material).  The UI-only
`id` strings are omitted. -/
inductive Primitive where
  | sphere (position : Vector3) (radius : ℝ) (material : Material)
  | plane (position : Vector3) (normalVec : Vector3) (material : Material)

/-- The `material` field of a primitive. -/
def Primitive.material : Primitive → Material
  | .sphere _ _ m => m
  | .plane _ _ m => m

/-- JS `Sphere.prototype.normal` / `Plane.prototype.normal`: the sphere
normal is `pos.subtract(center).normalize()`, the plane normal is the
stored `normalVec`, independent of the query point. -/
def Primitive.normal (p : Primitive) (pos : Vector3) : Vector3 :=
  match p with
  | .sphere c _ _ => (pos.subtract c).normalize
  | .plane _ n _ => n

/-- JS `Sphere.prototype.checkIntersection`, verbatim including the comma
expression `t_0 = Math.min(t_0, t_1), t_1 = Math.max(t_0, t_1)`: the second
assignment reads the value of `t_0` that the first assignment just wrote,
so `t_1` is `Math.max(min t0 t1, t1)`, not the maximum of the two original
roots.  `eps` is the global `scene.image.zero_tol`; `none` is `Infinity`. -/
def sphereCheckIntersection (eps : ℝ) (center : Vector3) (radius : ℝ)
    (ray : Ray) : Option ℝ :=
  let A := ray.origin
  let r := ray.direction
  let O := A.subtract center
  let a : ℝ := 1
  let b := 2 * O.inner r
  let c := O.inner O - radius * radius
  let discriminant := b * b - 4 * a * c
  if 0 ≤ discriminant then
    let sqrtDisc := Real.sqrt discriminant
    let num := (if b < 0 then -b - sqrtDisc else -b + sqrtDisc) / 2
    let t0 := num / a
    let t1 := c / num
    let t0' := min t0 t1
    let t1' := max t0' t1
    if eps ≤ t1' then some (if t0' < 0 then t1' else t0') else none
  else none

/-- JS `Plane.prototype.checkIntersection`: `none` is `Infinity`, `eps` is
the global `scene.image.zero_tol`. -/
def planeCheckIntersection (eps : ℝ) (position normalVec : Vector3)
    (ray : Ray) : Option ℝ :=
  let A := ray.origin
  let b := ray.direction
  let normal := normalVec
  let denominator := normal.inner b
  if |denominator| < eps then none
  else
    let t := (position.subtract A).inner normal / denominator
    if eps < t then some t else none

/-- Dispatch of the duck-typed `checkIntersection` method. -/
def Primitive.checkIntersection (p : Primitive) (eps : ℝ) (ray : Ray) :
    Option ℝ :=
  match p with
  | .sphere c r _ => sphereCheckIntersection eps c r ray
  | .plane pos n _ => planeCheckIntersection eps pos n ray

/-- JS `scene.camera` (fields not consulted by the traced claims are kept
for fidelity of the data model). -/
structure Camera where
  pos : Vector3
  direction : Vector3
  fov : ℝ
  up : Vector3
  background : Vector3

/-- JS `scene.image`. -/
structure ImageConfig where
  width : ℕ
  height : ℕ
  scale : ℝ
  zero_tol : ℝ

/-- The JS global `scene` object, passed explicitly. -/
structure Scene where
  lights : List Light
  objects : List Primitive
  camera : Camera
  image : ImageConfig

/-- The body of the `for` loop of JS `closestIntersection`: `i` is the loop
counter, `best` the running `{object, t}` record (`none` is the initial
`{null, Infinity}`).  An object is taken exactly when its solution is
finite (`intersectSolution < Infinity`) and strictly below the best-so-far
`t` (`Infinity` when `best` is `none`). -/
def closestIntersectionAux (eps : ℝ) (ray : Ray) :
    ℕ → List Primitive → Option (ℕ × Primitive × ℝ) →
    Option (ℕ × Primitive × ℝ)
  | _, [], best => best
  | i, obj :: rest, best =>
    match obj.checkIntersection eps ray with
    | none => closestIntersectionAux eps ray (i + 1) rest best
    | some sol =>
      match best with
      | none => closestIntersectionAux eps ray (i + 1) rest (some (i, obj, sol))
      | some (bi, bo, bt) =>
        if sol < bt then closestIntersectionAux eps ray (i + 1) rest (some (i, obj, sol))
        else closestIntersectionAux eps ray (i + 1) rest (some (bi, bo, bt))

/-- JS `closestIntersection`: linear scan over `scene.objects` starting
from the record `{object: null, t: Infinity}`. -/
def closestIntersection (s : Scene) (ray : Ray) : Option (ℕ × Primitive × ℝ) :=
  closestIntersectionAux s.image.zero_tol ray 0 s.objects none

/-- JS `Light.prototype.visible`: casts a ray from the light position
toward `pos`, resolves the closest intersection and succeeds iff the hit
object is reference-equal to the candidate (`objIdx` models the reference)
and its `t` exceeds `-scene.image.zero_tol`.  A `null` hit object compares
unequal to any candidate, hence `False`. -/
def Light.visible (light : Light) (s : Scene) (pos : Vector3) (objIdx : ℕ) :
    Prop :=
  match closestIntersection s (mkRay light.position (pos.subtract light.position)) with
  | none => False
  | some (i, _, t) => i = objIdx ∧ -s.image.zero_tol < t

/-- The light loop of JS `computeColor`: accumulates
`Math.max(L, 0)` with
`L = light.position.subtract(point).normalize().inner(normal) * intensity`
over every visible light. -/
def lightSum (s : Scene) (point normal : Vector3) (objIdx : ℕ) : ℝ :=
  s.lights.foldl
    (fun acc light =>
      if light.visible s point objIdx then
        acc + max (((light.position.subtract point).normalize.inner normal) *
          light.intensity) 0
      else acc) 0

mutual

/-- JS `traceRay`: resolve the closest intersection; on `{object: null}`
return `scene.camera.background`, otherwise delegate to `computeColor`.
The random cursor `k` is returned unchanged on the background path. -/
def traceRay (s : Scene) (rnd : ℕ → Vector3) (k : ℕ) (ray : Ray)
    (depth : ℕ) : Vector3 × ℕ :=
  match closestIntersection s ray with
  | none => (s.camera.background, k)
  | some (i, obj, t) => computeColor s rnd k ray i obj t depth
termination_by 3 * depth + 1
decreasing_by all_goals simp_wf <;> omega

/-- JS `computeColor` on the intersection record `{object, t}` (the object
given both as the list index `objIdx` — its reference — and as the value
`obj`).  The depth is decremented first (`--depth < 1` returns black, the
`reflection` zero vector).  When `diffuse > 0` the light loop runs, the
lambertian sum is clamped at `1`, and `color.add(material.scatter(...))` is
evaluated: `Vector3.prototype.add` returns a *new* vector which the JS code
does not store, so only the advanced random cursor of the scatter call
survives here.  When `specular > 0` a mirror ray is traced and scaled.  The
final color is
`reflection.add(color.times(lambertianAmount*diffuse)).add(color.times(ambient))`. -/
def computeColor (s : Scene) (rnd : ℕ → Vector3) (k : ℕ) (ray : Ray)
    (objIdx : ℕ) (obj : Primitive) (t : ℝ) (depth : ℕ) : Vector3 × ℕ :=
  let color := obj.material.color
  let rayIntPoint := ray.at t
  let surfaceNormal := obj.normal rayIntPoint
  if _h : depth - 1 < 1 then ((⟨0, 0, 0⟩ : Vector3), k)
  else
    let depth' := depth - 1
    let lambertianScale := obj.material.diffuse
    let lambertianAmount : ℝ :=
      if 0 < lambertianScale then
        min (lightSum s rayIntPoint surfaceNormal objIdx) 1
      else 0
    let k1 := if 0 < lambertianScale then (scatter s rnd k ray obj t depth').2 else k
    let specularScale := obj.material.specular
    let tr :=
      if 0 < specularScale then
        let surfaceRay := mkRay rayIntPoint (Material.reflect ray.direction surfaceNormal)
        let res := traceRay s rnd k1 surfaceRay depth'
        (res.1.times specularScale, res.2)
      else ((⟨0, 0, 0⟩ : Vector3), k1)
    ((tr.1.add (color.times (lambertianAmount * lambertianScale))).add
      (color.times obj.material.ambient), tr.2)
termination_by 3 * depth
decreasing_by all_goals simp_wf <;> omega

/-- JS `Material.prototype.scatter`: hit point, negated surface normal plus
one `Vector3.random(-1, 1)` sample (the value `rnd k`; the cursor advances
to `k + 1`), a new normalized ray from the hit point, recursively traced. -/
def scatter (s : Scene) (rnd : ℕ → Vector3) (k : ℕ) (ray : Ray)
    (obj : Primitive) (t : ℝ) (depth : ℕ) : Vector3 × ℕ :=
  let p := ray.at t
  let hitNormal := (obj.normal p).times (-1)
  let targ := hitNormal.add (rnd k)
  let r := mkRay p targ
  traceRay s rnd (k + 1) r depth
termination_by 3 * depth + 2
decreasing_by all_goals simp_wf <;> omega

end

/-- The sphere intersection routine exactly as the specification and claim
C2 describe it: the candidate roots are genuinely ordered
(`t0 ≤ t1` with `t0 = min`, `t1 = max` of the two original candidates),
then the `t1 ≥ epsilon` gate and the `t0 ≥ 0 ? t0 : t1` selection are
applied.  It differs from `sphereCheckIntersection` only in the ordering
step and exists solely as the comparison point for claim C2. -/
def sphereCheckIntersectionOrdered (eps : ℝ) (center : Vector3) (radius : ℝ)
    (ray : Ray) : Option ℝ :=
  let A := ray.origin
  let r := ray.direction
  let O := A.subtract center
  let a : ℝ := 1
  let b := 2 * O.inner r
  let c := O.inner O - radius * radius
  let discriminant := b * b - 4 * a * c
  if 0 ≤ discriminant then
    let sqrtDisc := Real.sqrt discriminant
    let num := (if b < 0 then -b - sqrtDisc else -b + sqrtDisc) / 2
    let t0 := num / a
    let t1 := c / num
    let t0' := min t0 t1
    let t1' := max t0 t1
    if eps ≤ t1' then some (if t0' < 0 then t1' else t0') else none
  else none

/-! ## Concrete scenes used by witnesses and counterexamples -/

/-- A concrete material: fully diffuse, no specular, no ambient. -/
def matW : Material := ⟨1, 0, 0, ⟨10, 20, 30⟩⟩

/-- A concrete floor plane through the origin with upward normal. -/
def planeW : Primitive := .plane ⟨0, 0, 0⟩ ⟨0, 1, 0⟩ matW

/-- A concrete camera with background color `(7,7,7)`. -/
def cameraW : Camera := ⟨⟨0, 0, 0⟩, ⟨0, 0, 1⟩, 40, ⟨0, 1, 0⟩, ⟨7, 7, 7⟩⟩

/-- A concrete scene holding the single floor plane and no lights. -/
def sceneP : Scene := ⟨[], [planeW], cameraW, ⟨320, 450, 1, 1 / 1000⟩⟩

/-- A concrete scene with no primitives at all. -/
def sceneE : Scene := ⟨[], [], cameraW, ⟨320, 450, 1, 1 / 1000⟩⟩

/-- A concrete stream of accepted `Vector3.random` samples: always `(0,0,0)`
(a legal sample, its norm `0 < 1`). -/
def rndW : ℕ → Vector3 := fun _ => ⟨0, 0, 0⟩

/-- A concrete unit ray from `(0,1,0)` straight down. -/
def rayW : Ray := ⟨⟨0, 1, 0⟩, ⟨0, -1, 0⟩⟩

/-- A concrete point light sitting at `(0,1,0)`. -/
def lightW : Light := ⟨⟨0, 1, 0⟩, 1⟩

/-! ## Basic facts about the vector algebra -/

lemma Vector3.inner_comm (v w : Vector3) : v.inner w = w.inner v := by
  simp only [Vector3.inner]; ring

lemma Vector3.inner_self_nonneg (v : Vector3) : 0 ≤ v.inner v := by
  simp only [Vector3.inner]
  nlinarith [mul_self_nonneg v.x, mul_self_nonneg v.y, mul_self_nonneg v.z]

lemma Vector3.norm_nonneg' (v : Vector3) : 0 ≤ v.norm :=
  Real.sqrt_nonneg _

lemma Vector3.inner_self_eq_zero_iff (v : Vector3) :
    v.inner v = 0 ↔ v = ⟨0, 0, 0⟩ := by
  constructor
  · intro h
    simp only [Vector3.inner] at h
    have hx : v.x * v.x = 0 := by
      nlinarith [mul_self_nonneg v.x, mul_self_nonneg v.y, mul_self_nonneg v.z]
    have hy : v.y * v.y = 0 := by
      nlinarith [mul_self_nonneg v.x, mul_self_nonneg v.y, mul_self_nonneg v.z]
    have hz : v.z * v.z = 0 := by
      nlinarith [mul_self_nonneg v.x, mul_self_nonneg v.y, mul_self_nonneg v.z]
    have hx0 : v.x = 0 := mul_self_eq_zero.mp hx
    have hy0 : v.y = 0 := mul_self_eq_zero.mp hy
    have hz0 : v.z = 0 := mul_self_eq_zero.mp hz
    ext <;> simp [hx0, hy0, hz0]
  · intro h
    subst h
    simp [Vector3.inner]

lemma Vector3.norm_eq_zero_iff (v : Vector3) :
    v.norm = 0 ↔ v = ⟨0, 0, 0⟩ := by
  rw [Vector3.norm, Real.sqrt_eq_zero (Vector3.inner_self_nonneg v),
    Vector3.inner_self_eq_zero_iff]

lemma Vector3.inner_times_self (v : Vector3) (s : ℝ) :
    (v.times s).inner (v.times s) = s ^ 2 * v.inner v := by
  simp only [Vector3.times, Vector3.inner]; ring

lemma Vector3.norm_times (v : Vector3) (s : ℝ) :
    (v.times s).norm = |s| * v.norm := by
  rw [Vector3.norm, Vector3.inner_times_self,
    Real.sqrt_mul (sq_nonneg s), Real.sqrt_sq_eq_abs, Vector3.norm]

lemma Vector3.times_one (v : Vector3) : v.times 1 = v := by
  ext <;> simp [Vector3.times]

/-- Normalizing a vector of nonzero norm yields a vector of norm exactly 1. -/
lemma Vector3.normalize_norm_of_ne_zero (v : Vector3) (h : v.norm ≠ 0) :
    v.normalize.norm = 1 := by
  have hpos : 0 < v.norm := lt_of_le_of_ne (Vector3.norm_nonneg' v) (Ne.symm h)
  rw [Vector3.normalize, if_pos h, Vector3.divide, Vector3.norm_times,
    abs_of_pos (by positivity)]
  field_simp

/-- A vector whose norm is already 1 is untouched by `normalize`. -/
lemma Vector3.normalize_of_norm_one (v : Vector3) (h : v.norm = 1) :
    v.normalize = v := by
  rw [Vector3.normalize, if_pos (by rw [h]; norm_num), Vector3.divide, h]
  norm_num [Vector3.times_one]

/-! ## Claim C8: the Ray constructor normalizes its direction -/

/-- C8 (counterexample): the claim "for every origin vector and every
direction vector passed to the Ray constructor, the constructed ray's
direction is unit-length" is false at the concrete input
`new Ray((0,0,0), (0,0,0))`: `normalize` returns the zero vector unchanged
(its norm is `0`, not `1`). -/
theorem mkRay_zero_direction_not_unit :
    ¬ (mkRay ⟨0, 0, 0⟩ ⟨0, 0, 0⟩).direction.norm = 1 := by
  norm_num [mkRay, Vector3.normalize, Vector3.norm, Vector3.inner,
    Real.sqrt_zero]

/-- C8 (amended): for every origin vector and every direction vector of
nonzero norm passed to the Ray constructor, the constructed ray's direction
is unit-length (the constructor normalizes it eagerly); a zero direction is
the one exception, left unchanged as the zero vector. -/
theorem mkRay_direction_unit (o d : Vector3) (h : d.norm ≠ 0) :
    (mkRay o d).direction.norm = 1 :=
  Vector3.normalize_norm_of_ne_zero d h

/-- C8 witness: the amended statement at the concrete input
`new Ray((0,0,0), (0,0,1))`. -/
theorem mkRay_direction_unit_witness :
    (mkRay ⟨0, 0, 0⟩ ⟨0, 0, 1⟩).direction.norm = 1 :=
  mkRay_direction_unit ⟨0, 0, 0⟩ ⟨0, 0, 1⟩
    (by norm_num [Vector3.norm, Vector3.inner, Real.sqrt_one])

/-! ## Claim C9: normalize on zero and on nonzero vectors -/

/-- C9: `normalize()` of the zero vector returns the zero vector unchanged;
and for every nonzero vector `v`, `normalize(v)` has norm exactly 1 and
`normalize(normalize(v)) = normalize(v)` (idempotence). -/
theorem normalize_zero_and_unit_idempotent :
    Vector3.normalize ⟨0, 0, 0⟩ = ⟨0, 0, 0⟩ ∧
    ∀ v : Vector3, v ≠ ⟨0, 0, 0⟩ →
      v.normalize.norm = 1 ∧ v.normalize.normalize = v.normalize := by
  constructor
  · rw [Vector3.normalize, if_neg]
    simp [Vector3.norm_eq_zero_iff]
  · intro v hv
    have hn : v.norm ≠ 0 := fun h0 => hv ((Vector3.norm_eq_zero_iff v).mp h0)
    have h1 : v.normalize.norm = 1 := Vector3.normalize_norm_of_ne_zero v hn
    exact ⟨h1, Vector3.normalize_of_norm_one _ h1⟩

/-- C9 witness: the nonzero-vector part at the concrete vector `(0,0,1)`
(together with the zero-vector part, which is hypothesis-free). -/
theorem normalize_zero_and_unit_idempotent_witness :
    Vector3.normalize ⟨0, 0, 0⟩ = ⟨0, 0, 0⟩ ∧
    (Vector3.normalize ⟨0, 0, 1⟩).norm = 1 ∧
    Vector3.normalize (Vector3.normalize ⟨0, 0, 1⟩) =
      Vector3.normalize ⟨0, 0, 1⟩ :=
  ⟨normalize_zero_and_unit_idempotent.1,
   normalize_zero_and_unit_idempotent.2 ⟨0, 0, 1⟩
     (by norm_num [Vector3.mk.injEq])⟩

/-! ## Claim C7: plane intersection -/

/-- C7: `Plane.checkIntersection` computes `denom = ⟨normal, direction⟩`
and returns Infinity (`none`) whenever `|denom| < epsilon`; otherwise it
computes `t = ⟨normal, planePoint - origin⟩ / denom` and returns `t`
exactly when `t > epsilon`, Infinity otherwise. -/
theorem planeCheckIntersection_spec (eps : ℝ) (ppos pn : Vector3) (ray : Ray) :
    (|pn.inner ray.direction| < eps →
      planeCheckIntersection eps ppos pn ray = none) ∧
    (¬ |pn.inner ray.direction| < eps →
      (eps < pn.inner (ppos.subtract ray.origin) / pn.inner ray.direction →
        planeCheckIntersection eps ppos pn ray =
          some (pn.inner (ppos.subtract ray.origin) / pn.inner ray.direction)) ∧
      (¬ eps < pn.inner (ppos.subtract ray.origin) / pn.inner ray.direction →
        planeCheckIntersection eps ppos pn ray = none)) := by
  have hcomm : (ppos.subtract ray.origin).inner pn =
      pn.inner (ppos.subtract ray.origin) := Vector3.inner_comm _ _
  refine ⟨fun h => ?_, fun h => ⟨fun h2 => ?_, fun h2 => ?_⟩⟩
  · simp [planeCheckIntersection, h]
  · simp [planeCheckIntersection, h, hcomm, h2]
  · simp [planeCheckIntersection, h, hcomm, h2]

/-- C7 witness: both branches at concrete inputs.  A ray parallel to the
plane (`denom = 0`) yields Infinity; a ray from `(0,1,0)` straight down
onto the plane through the origin with normal `(0,1,0)` yields `t = 1`. -/
theorem planeCheckIntersection_spec_witness :
    planeCheckIntersection (1 / 1000) ⟨0, 0, 0⟩ ⟨0, 1, 0⟩
      ⟨⟨0, 5, 0⟩, ⟨1, 0, 0⟩⟩ = none ∧
    planeCheckIntersection (1 / 1000) ⟨0, 0, 0⟩ ⟨0, 1, 0⟩
      ⟨⟨0, 1, 0⟩, ⟨0, -1, 0⟩⟩ = some 1 := by
  constructor
  · exact (planeCheckIntersection_spec (1 / 1000) ⟨0, 0, 0⟩ ⟨0, 1, 0⟩
      ⟨⟨0, 5, 0⟩, ⟨1, 0, 0⟩⟩).1 (by norm_num [Vector3.inner])
  · have h := ((planeCheckIntersection_spec (1 / 1000) ⟨0, 0, 0⟩ ⟨0, 1, 0⟩
      ⟨⟨0, 1, 0⟩, ⟨0, -1, 0⟩⟩).2 (by norm_num [Vector3.inner])).1
      (by norm_num [Vector3.inner, Vector3.subtract, Vector3.add, Vector3.times])
    rw [h]
    norm_num [Vector3.inner, Vector3.subtract, Vector3.add, Vector3.times]

/-! ## Claim C4: the closest-intersection resolver -/

lemma closestIntersectionAux_none_iff (eps : ℝ) (ray : Ray) :
    ∀ (objs : List Primitive) (i : ℕ) (best : Option (ℕ × Primitive × ℝ)),
      closestIntersectionAux eps ray i objs best = none ↔
        best = none ∧ ∀ o ∈ objs, o.checkIntersection eps ray = none := by
  intro objs
  induction objs with
  | nil => intro i best; simp [closestIntersectionAux]
  | cons o rest ih =>
    intro i best
    cases hc : o.checkIntersection eps ray with
    | none => simp [closestIntersectionAux, hc, ih, List.forall_mem_cons]
    | some sol =>
      rcases best with _ | ⟨bi, bo, bt⟩
      · simp [closestIntersectionAux, hc, ih, List.forall_mem_cons]
      · by_cases hlt : sol < bt
        · simp [closestIntersectionAux, hc, hlt, ih, List.forall_mem_cons]
        · simp [closestIntersectionAux, hc, hlt, ih, List.forall_mem_cons]

lemma closestIntersectionAux_le_best (eps : ℝ) (ray : Ray) :
    ∀ (objs : List Primitive) (i bi : ℕ) (bo : Primitive) (bt : ℝ)
      (ci : ℕ) (co : Primitive) (ct : ℝ),
      closestIntersectionAux eps ray i objs (some (bi, bo, bt)) =
        some (ci, co, ct) →
      ct ≤ bt ∧ (ct = bt → ci = bi ∧ co = bo) := by
  intro objs
  induction objs with
  | nil =>
    intro i bi bo bt ci co ct h
    simp only [closestIntersectionAux, Option.some.injEq, Prod.mk.injEq] at h
    obtain ⟨h1, h2, h3⟩ := h
    subst h1; subst h2; subst h3
    exact ⟨le_refl _, fun _ => ⟨rfl, rfl⟩⟩
  | cons o rest ih =>
    intro i bi bo bt ci co ct h
    cases hc : o.checkIntersection eps ray with
    | none =>
      simp only [closestIntersectionAux, hc] at h
      exact ih (i + 1) bi bo bt ci co ct h
    | some sol =>
      simp only [closestIntersectionAux, hc] at h
      by_cases hlt : sol < bt
      · rw [if_pos hlt] at h
        obtain ⟨hle, -⟩ := ih (i + 1) i o sol ci co ct h
        have hctlt : ct < bt := lt_of_le_of_lt hle hlt
        exact ⟨le_of_lt hctlt, fun he => absurd hctlt (by rw [he]; exact lt_irrefl bt)⟩
      · rw [if_neg hlt] at h
        exact ih (i + 1) bi bo bt ci co ct h

lemma closestIntersectionAux_min (eps : ℝ) (ray : Ray) :
    ∀ (objs : List Primitive) (i : ℕ) (best : Option (ℕ × Primitive × ℝ))
      (ci : ℕ) (co : Primitive) (ct : ℝ),
      closestIntersectionAux eps ray i objs best = some (ci, co, ct) →
      ∀ (j : ℕ) (o : Primitive), objs[j]? = some o →
        ∀ s : ℝ, o.checkIntersection eps ray = some s → ct ≤ s := by
  intro objs
  induction objs with
  | nil =>
    intro i best ci co ct _ j o hj
    simp at hj
  | cons o rest ih =>
    intro i best ci co ct h j o0 hj s hs
    cases hc : o.checkIntersection eps ray with
    | none =>
      simp only [closestIntersectionAux, hc] at h
      cases j with
      | zero =>
        simp only [List.getElem?_cons_zero, Option.some.injEq] at hj
        subst hj
        rw [hc] at hs
        cases hs
      | succ j' =>
        simp only [List.getElem?_cons_succ] at hj
        exact ih (i + 1) best ci co ct h j' o0 hj s hs
    | some sol =>
      rcases best with _ | ⟨bi, bo, bt⟩
      all_goals simp only [closestIntersectionAux, hc] at h
      · cases j with
        | zero =>
          simp only [List.getElem?_cons_zero, Option.some.injEq] at hj
          subst hj
          rw [hc] at hs
          obtain rfl : sol = s := by injection hs
          exact (closestIntersectionAux_le_best eps ray rest (i + 1) i o sol
            ci co ct h).1
        | succ j' =>
          simp only [List.getElem?_cons_succ] at hj
          exact ih (i + 1) (some (i, o, sol)) ci co ct h j' o0 hj s hs
      · by_cases hlt : sol < bt
        · rw [if_pos hlt] at h
          cases j with
          | zero =>
            simp only [List.getElem?_cons_zero, Option.some.injEq] at hj
            subst hj
            rw [hc] at hs
            obtain rfl : sol = s := by injection hs
            exact (closestIntersectionAux_le_best eps ray rest (i + 1) i o sol
              ci co ct h).1
          | succ j' =>
            simp only [List.getElem?_cons_succ] at hj
            exact ih (i + 1) (some (i, o, sol)) ci co ct h j' o0 hj s hs
        · rw [if_neg hlt] at h
          cases j with
          | zero =>
            simp only [List.getElem?_cons_zero, Option.some.injEq] at hj
            subst hj
            rw [hc] at hs
            obtain rfl : sol = s := by injection hs
            have hbt := (closestIntersectionAux_le_best eps ray rest (i + 1)
              bi bo bt ci co ct h).1
            linarith [not_lt.mp hlt]
          | succ j' =>
            simp only [List.getElem?_cons_succ] at hj
            exact ih (i + 1) (some (bi, bo, bt)) ci co ct h j' o0 hj s hs

lemma closestIntersectionAux_first (eps : ℝ) (ray : Ray) :
    ∀ (objs : List Primitive) (i : ℕ) (best : Option (ℕ × Primitive × ℝ))
      (ci : ℕ) (co : Primitive) (ct : ℝ),
      (∀ (bi : ℕ) (bo : Primitive) (bt : ℝ), best = some (bi, bo, bt) → bi < i) →
      closestIntersectionAux eps ray i objs best = some (ci, co, ct) →
      ∀ (j : ℕ) (o : Primitive), objs[j]? = some o →
        ∀ s : ℝ, o.checkIntersection eps ray = some s → s = ct → ci ≤ i + j := by
  intro objs
  induction objs with
  | nil =>
    intro i best ci co ct _ _ j o hj
    simp at hj
  | cons o rest ih =>
    intro i best ci co ct hb h j o0 hj s hs hst
    cases hc : o.checkIntersection eps ray with
    | none =>
      simp only [closestIntersectionAux, hc] at h
      cases j with
      | zero =>
        simp only [List.getElem?_cons_zero, Option.some.injEq] at hj
        subst hj
        rw [hc] at hs
        cases hs
      | succ j' =>
        simp only [List.getElem?_cons_succ] at hj
        have := ih (i + 1) best ci co ct
          (fun bi bo bt hbe => Nat.lt_succ_of_lt (hb bi bo bt hbe)) h j' o0 hj s hs hst
        omega
    | some sol =>
      rcases best with _ | ⟨bi, bo, bt⟩
      all_goals simp only [closestIntersectionAux, hc] at h
      · cases j with
        | zero =>
          simp only [List.getElem?_cons_zero, Option.some.injEq] at hj
          subst hj
          rw [hc] at hs
          obtain rfl : sol = s := Option.some.inj hs
          obtain ⟨-, htie⟩ := closestIntersectionAux_le_best eps ray rest (i + 1)
            i o sol ci co ct h
          obtain ⟨rfl, -⟩ := htie hst.symm
          omega
        | succ j' =>
          simp only [List.getElem?_cons_succ] at hj
          have := ih (i + 1) (some (i, o, sol)) ci co ct
            (fun bi2 bo2 bt2 hbe => by
              simp only [Option.some.injEq, Prod.mk.injEq] at hbe
              obtain ⟨h1, -, -⟩ := hbe
              omega) h j' o0 hj s hs hst
          omega
      · by_cases hlt : sol < bt
        · rw [if_pos hlt] at h
          cases j with
          | zero =>
            simp only [List.getElem?_cons_zero, Option.some.injEq] at hj
            subst hj
            rw [hc] at hs
            obtain rfl : sol = s := Option.some.inj hs
            obtain ⟨-, htie⟩ := closestIntersectionAux_le_best eps ray rest (i + 1)
              i o sol ci co ct h
            obtain ⟨rfl, -⟩ := htie hst.symm
            omega
          | succ j' =>
            simp only [List.getElem?_cons_succ] at hj
            have := ih (i + 1) (some (i, o, sol)) ci co ct
              (fun bi2 bo2 bt2 hbe => by
                simp only [Option.some.injEq, Prod.mk.injEq] at hbe
                obtain ⟨h1, -, -⟩ := hbe
                omega) h j' o0 hj s hs hst
            omega
        · rw [if_neg hlt] at h
          cases j with
          | zero =>
            simp only [List.getElem?_cons_zero, Option.some.injEq] at hj
            subst hj
            rw [hc] at hs
            obtain rfl : sol = s := Option.some.inj hs
            obtain ⟨hle, htie⟩ := closestIntersectionAux_le_best eps ray rest (i + 1)
              bi bo bt ci co ct h
            have hbtle : bt ≤ sol := not_lt.mp hlt
            have hctbt : ct = bt := le_antisymm hle (hst ▸ hbtle)
            obtain ⟨rfl, -⟩ := htie hctbt
            have hbi := hb ci bo bt rfl
            omega
          | succ j' =>
            simp only [List.getElem?_cons_succ] at hj
            have := ih (i + 1) (some (bi, bo, bt)) ci co ct
              (fun bi2 bo2 bt2 hbe => Nat.lt_succ_of_lt (hb bi2 bo2 bt2 hbe)) h
              j' o0 hj s hs hst
            omega

lemma closestIntersectionAux_mem (eps : ℝ) (ray : Ray) :
    ∀ (objs : List Primitive) (i : ℕ) (best : Option (ℕ × Primitive × ℝ))
      (ci : ℕ) (co : Primitive) (ct : ℝ),
      closestIntersectionAux eps ray i objs best = some (ci, co, ct) →
      best = some (ci, co, ct) ∨
        ∃ j : ℕ, objs[j]? = some co ∧ ci = i + j ∧
          co.checkIntersection eps ray = some ct := by
  intro objs
  induction objs with
  | nil =>
    intro i best ci co ct h
    exact Or.inl h
  | cons o rest ih =>
    intro i best ci co ct h
    cases hc : o.checkIntersection eps ray with
    | none =>
      simp only [closestIntersectionAux, hc] at h
      rcases ih (i + 1) best ci co ct h with hl | ⟨j, hj, hij, hck⟩
      · exact Or.inl hl
      · exact Or.inr ⟨j + 1, by simpa using hj, by omega, hck⟩
    | some sol =>
      rcases best with _ | ⟨bi, bo, bt⟩
      all_goals simp only [closestIntersectionAux, hc] at h
      · rcases ih (i + 1) (some (i, o, sol)) ci co ct h with hl | ⟨j, hj, hij, hck⟩
        · refine Or.inr ⟨0, ?_, ?_, ?_⟩ <;>
            simp only [Option.some.injEq, Prod.mk.injEq] at hl
          · obtain ⟨-, rfl, -⟩ := hl
            simp
          · omega
          · obtain ⟨-, rfl, rfl⟩ := hl
            exact hc
        · exact Or.inr ⟨j + 1, by simpa using hj, by omega, hck⟩
      · by_cases hlt : sol < bt
        · rw [if_pos hlt] at h
          rcases ih (i + 1) (some (i, o, sol)) ci co ct h with hl | ⟨j, hj, hij, hck⟩
          · refine Or.inr ⟨0, ?_, ?_, ?_⟩ <;>
              simp only [Option.some.injEq, Prod.mk.injEq] at hl
            · obtain ⟨-, rfl, -⟩ := hl
              simp
            · omega
            · obtain ⟨-, rfl, rfl⟩ := hl
              exact hc
          · exact Or.inr ⟨j + 1, by simpa using hj, by omega, hck⟩
        · rw [if_neg hlt] at h
          rcases ih (i + 1) (some (bi, bo, bt)) ci co ct h with hl | ⟨j, hj, hij, hck⟩
          · exact Or.inl hl
          · exact Or.inr ⟨j + 1, by simpa using hj, by omega, hck⟩


/-- C4: `closestIntersection` performs a linear scan with the best-so-far
initialized to `{null, Infinity}` (here `none`) and returns the primitive
whose `checkIntersection` distance is minimal among all finite results:
it returns `none` exactly when no primitive reports a finite hit, and when
it returns `some (ci, co, ct)` then `co` sits at index `ci` of
`scene.objects`, reported distance `ct`, `ct` is minimal among all finite
distances, and on an exact numeric tie the first primitive in insertion
order wins (`ci` is at most any tying index). -/
theorem closestIntersection_spec (s : Scene) (ray : Ray) :
    (closestIntersection s ray = none ↔
      ∀ o ∈ s.objects, o.checkIntersection s.image.zero_tol ray = none) ∧
    (∀ (ci : ℕ) (co : Primitive) (ct : ℝ),
      closestIntersection s ray = some (ci, co, ct) →
      s.objects[ci]? = some co ∧
      co.checkIntersection s.image.zero_tol ray = some ct ∧
      ∀ (j : ℕ) (o : Primitive), s.objects[j]? = some o →
        ∀ t' : ℝ, o.checkIntersection s.image.zero_tol ray = some t' →
          ct ≤ t' ∧ (t' = ct → ci ≤ j)) := by
  constructor
  · rw [closestIntersection,
      closestIntersectionAux_none_iff s.image.zero_tol ray s.objects 0 none]
    simp
  · intro ci co ct h
    rw [closestIntersection] at h
    have hmem := closestIntersectionAux_mem s.image.zero_tol ray s.objects 0
      none ci co ct h
    rcases hmem with hl | ⟨j, hj, hij, hck⟩
    · cases hl
    · have hci : ci = j := by omega
      subst hci
      refine ⟨hj, hck, fun j2 o2 hj2 t2 hck2 => ?_⟩
      refine ⟨closestIntersectionAux_min s.image.zero_tol ray s.objects 0 none
        ci co ct h j2 o2 hj2 t2 hck2, fun ht => ?_⟩
      have := closestIntersectionAux_first s.image.zero_tol ray s.objects 0
        none ci co ct (fun _ _ _ hbe => by cases hbe) h j2 o2 hj2 t2 hck2 ht
      omega

/-- A shared concrete evaluation: in the one-plane scene, the downward unit
ray from `(0,1,0)` hits the floor plane (index 0) at distance `t = 1`. -/
lemma closestIntersection_sceneP_rayW :
    closestIntersection sceneP rayW = some (0, planeW, 1) := by
  have hch : planeW.checkIntersection ((1000 : ℝ)⁻¹) rayW = some 1 := by
    norm_num [Primitive.checkIntersection, planeW, matW, planeCheckIntersection,
      Vector3.inner, Vector3.subtract, Vector3.add, Vector3.times, rayW]
  simp [closestIntersection, sceneP, closestIntersectionAux, hch]

/-- C4 witness: the no-hit direction of the iff at the empty scene, and the
minimality conjunct at the concrete one-plane scene. -/
theorem closestIntersection_spec_witness :
    closestIntersection sceneE rayW = none ∧
    sceneP.objects[0]? = some planeW ∧
    planeW.checkIntersection sceneP.image.zero_tol rayW = some 1 :=
  ⟨(closestIntersection_spec sceneE rayW).1.mpr (by simp [sceneE]),
   ((closestIntersection_spec sceneP rayW).2 0 planeW 1
      closestIntersection_sceneP_rayW).1,
   ((closestIntersection_spec sceneP rayW).2 0 planeW 1
      closestIntersection_sceneP_rayW).2.1⟩

/-! ## Claim C3: shadow visibility -/

/-- C3: `Light.visible(point, object)` returns true iff the closest
intersection of the ray cast from the light position toward the point is
exactly the candidate primitive (reference equality, modelled by the scene
index) with hit distance exceeding `-epsilon`; if a different primitive is
the nearest hit, or there is no hit at all, it returns false. -/
theorem visible_iff (s : Scene) (light : Light) (pos : Vector3) (objIdx : ℕ) :
    (light.visible s pos objIdx ↔
      ∃ (obj : Primitive) (t : ℝ),
        closestIntersection s
          (mkRay light.position (pos.subtract light.position)) =
          some (objIdx, obj, t) ∧ -s.image.zero_tol < t) ∧
    (closestIntersection s (mkRay light.position (pos.subtract light.position)) =
        none → ¬ light.visible s pos objIdx) ∧
    (∀ (i : ℕ) (obj : Primitive) (t : ℝ),
      closestIntersection s (mkRay light.position (pos.subtract light.position)) =
        some (i, obj, t) → i ≠ objIdx → ¬ light.visible s pos objIdx) := by
  refine ⟨?_, ?_, ?_⟩
  · cases hc : closestIntersection s
      (mkRay light.position (pos.subtract light.position)) with
    | none => simp [Light.visible, hc]
    | some c =>
      obtain ⟨i, obj, t⟩ := c
      simp only [Light.visible, hc]
      constructor
      · rintro ⟨rfl, ht⟩
        exact ⟨obj, t, rfl, ht⟩
      · rintro ⟨obj2, t2, he, ht⟩
        simp only [Option.some.injEq, Prod.mk.injEq] at he
        obtain ⟨h1, h2, h3⟩ := he
        subst h1; subst h2; subst h3
        exact ⟨rfl, ht⟩
  · intro h
    simp [Light.visible, h]
  · intro i obj t h hne
    simp [Light.visible, h, hne]

/-- C3 witness: in the one-plane scene, a light at `(0,1,0)` sees the point
`(0,0,0)` of the floor plane (candidate index 0): the nearest hit of the
light-to-point ray is that same plane at distance `1 > -epsilon`. -/
theorem visible_iff_witness : lightW.visible sceneP ⟨0, 0, 0⟩ 0 := by
  have hray : mkRay lightW.position
      ((⟨0, 0, 0⟩ : Vector3).subtract lightW.position) = rayW := by
    have hsub : (⟨0, 0, 0⟩ : Vector3).subtract ⟨0, 1, 0⟩ = ⟨0, -1, 0⟩ := by
      ext <;> norm_num [Vector3.subtract, Vector3.add, Vector3.times]
    show mkRay ⟨0, 1, 0⟩ ((⟨0, 0, 0⟩ : Vector3).subtract ⟨0, 1, 0⟩) = rayW
    rw [hsub, mkRay, rayW]
    refine congrArg (Ray.mk _) ?_
    exact Vector3.normalize_of_norm_one _
      (by norm_num [Vector3.norm, Vector3.inner, Real.sqrt_one])
  exact ((visible_iff sceneP lightW ⟨0, 0, 0⟩ 0).1).mpr
    ⟨planeW, 1, by rw [hray]; exact closestIntersection_sceneP_rayW,
      by norm_num [sceneP]⟩

/-! ## Claim C5: depth termination -/

/-- C5: for every scene, random stream, cursor, ray and intersection
record, `computeColor` called with `depth = 1` decrements the depth, finds
it below 1, and returns `(0,0,0)` before evaluating any diffuse, specular
or ambient lighting term — in particular the random cursor is returned
untouched, so not even the stochastic scatter sample was drawn.  Recursion
depth exhaustion is thus a normal termination outcome, and (all the
embedded shading functions being total in Lean) every recursive bounce
chain terminates within the configured depth. -/
theorem computeColor_depth_one (s : Scene) (rnd : ℕ → Vector3) (k : ℕ)
    (ray : Ray) (i : ℕ) (obj : Primitive) (t : ℝ) :
    computeColor s rnd k ray i obj t 1 = ((⟨0, 0, 0⟩ : Vector3), k) := by
  rw [computeColor]
  norm_num

/-! ## Claim C6: traceRay background fallback and delegation -/

/-- C6: `traceRay` returns exactly the camera's background color whenever
the closest-intersection resolver reports no hit — in particular for every
ray over a scene with zero primitives — and otherwise delegates to
`computeColor` on the found intersection. -/
theorem traceRay_spec (s : Scene) (rnd : ℕ → Vector3) (k : ℕ) (ray : Ray)
    (depth : ℕ) :
    (closestIntersection s ray = none →
      traceRay s rnd k ray depth = (s.camera.background, k)) ∧
    (s.objects = [] →
      traceRay s rnd k ray depth = (s.camera.background, k)) ∧
    (∀ (i : ℕ) (obj : Primitive) (t : ℝ),
      closestIntersection s ray = some (i, obj, t) →
      traceRay s rnd k ray depth = computeColor s rnd k ray i obj t depth) := by
  refine ⟨fun h => ?_, fun h => ?_, fun i obj t h => ?_⟩
  · rw [traceRay, h]
  · have hnone : closestIntersection s ray = none := by
      rw [closestIntersection, h]
      rfl
    rw [traceRay, hnone]
  · rw [traceRay, h]

/-- C6 witness: over the empty scene every ray yields the background color
`(7,7,7)`, and over the one-plane scene the downward ray delegates to
`computeColor` on the plane hit. -/
theorem traceRay_spec_witness :
    traceRay sceneE rndW 0 rayW 3 = (sceneE.camera.background, 0) ∧
    traceRay sceneP rndW 0 rayW 3 = computeColor sceneP rndW 0 rayW 0 planeW 1 3 :=
  ⟨(traceRay_spec sceneE rndW 0 rayW 3).2.1 rfl,
   (traceRay_spec sceneP rndW 0 rayW 3).2.2 0 planeW 1
     closestIntersection_sceneP_rayW⟩

/-! ## Claim C10: the returned color does not depend on the random draws -/

lemma shading_random_independent :
    ∀ d : ℕ,
      (∀ (s : Scene) (rnd1 : ℕ → Vector3) (k1 : ℕ) (rnd2 : ℕ → Vector3)
        (k2 : ℕ) (ray : Ray),
        (traceRay s rnd1 k1 ray d).1 = (traceRay s rnd2 k2 ray d).1) ∧
      (∀ (s : Scene) (rnd1 : ℕ → Vector3) (k1 : ℕ) (rnd2 : ℕ → Vector3)
        (k2 : ℕ) (ray : Ray) (i : ℕ) (obj : Primitive) (t : ℝ),
        (computeColor s rnd1 k1 ray i obj t d).1 =
          (computeColor s rnd2 k2 ray i obj t d).1) := by
  intro d
  induction d with
  | zero =>
    have hcc : ∀ (s : Scene) (rnd1 : ℕ → Vector3) (k1 : ℕ)
        (rnd2 : ℕ → Vector3) (k2 : ℕ) (ray : Ray) (i : ℕ) (obj : Primitive)
        (t : ℝ),
        (computeColor s rnd1 k1 ray i obj t 0).1 =
          (computeColor s rnd2 k2 ray i obj t 0).1 := by
      intro s rnd1 k1 rnd2 k2 ray i obj t
      rw [computeColor, computeColor]
      norm_num
    refine ⟨fun s rnd1 k1 rnd2 k2 ray => ?_, hcc⟩
    cases hc : closestIntersection s ray with
    | none => rw [traceRay, hc, traceRay, hc]
    | some c =>
      obtain ⟨i, obj, t⟩ := c
      rw [traceRay, hc, traceRay, hc]
      exact hcc s rnd1 k1 rnd2 k2 ray i obj t
  | succ d ihd =>
    have hcc : ∀ (s : Scene) (rnd1 : ℕ → Vector3) (k1 : ℕ)
        (rnd2 : ℕ → Vector3) (k2 : ℕ) (ray : Ray) (i : ℕ) (obj : Primitive)
        (t : ℝ),
        (computeColor s rnd1 k1 ray i obj t (d + 1)).1 =
          (computeColor s rnd2 k2 ray i obj t (d + 1)).1 := by
      intro s rnd1 k1 rnd2 k2 ray i obj t
      by_cases hb : d + 1 - 1 < 1
      · rw [computeColor, computeColor]
        simp only [dif_pos hb]
      · rw [computeColor, computeColor]
        simp only [dif_neg hb]
        by_cases hs : 0 < obj.material.specular
        · simp only [if_pos hs]
          have htr := ihd.1
          simp only [Nat.add_sub_cancel]
          rw [htr s rnd1 (if 0 < obj.material.diffuse then
              (scatter s rnd1 k1 ray obj t d).2 else k1) rnd2
              (if 0 < obj.material.diffuse then
              (scatter s rnd2 k2 ray obj t d).2 else k2)]
        · simp only [if_neg hs]
    refine ⟨fun s rnd1 k1 rnd2 k2 ray => ?_, hcc⟩
    cases hc : closestIntersection s ray with
    | none => rw [traceRay, hc, traceRay, hc]
    | some c =>
      obtain ⟨i, obj, t⟩ := c
      rw [traceRay, hc, traceRay, hc]
      exact hcc s rnd1 k1 rnd2 k2 ray i obj t

/-- C10: for every fixed scene, ray, intersection record and depth, the
color component returned by `computeColor` is the same for any two random
streams (and any two cursor positions): the stochastic scatter sample never
reaches the returned color, because `Vector3.prototype.add` returns a new
instance and the result of `color.add(scatter(...))` is not kept. -/
theorem computeColor_random_independent (s : Scene) (ray : Ray) (i : ℕ)
    (obj : Primitive) (t : ℝ) (depth : ℕ) (rnd1 rnd2 : ℕ → Vector3)
    (k1 k2 : ℕ) :
    (computeColor s rnd1 k1 ray i obj t depth).1 =
      (computeColor s rnd2 k2 ray i obj t depth).1 :=
  (shading_random_independent depth).2 s rnd1 k1 rnd2 k2 ray i obj t

/-! ## Claim C1: the scatter sample is computed but discarded -/

/-- C1 (code evaluation at the failing input): in the one-plane scene with
a fully diffuse material (diffuse 1, specular 0, ambient 0, base color
`(10,20,30)`), no lights, and background `(7,7,7)`, `computeColor` at
depth 3 on the plane hit returns black `(0,0,0)` — even though the
stochastic scatter sample it draws at that very point traces to the
distinctly nonzero background `(7,7,7)`.  The JS line
`color.add(object.material.scatter(ray, intersection, depth))` builds a new
vector and never stores it, so, contrary to the claim, the scatter-traced
color is not blended into the base surface color used in the final
combination. -/
theorem computeColor_scatter_discarded :
    (computeColor sceneP rndW 0 rayW 0 planeW 1 3).1 = (⟨0, 0, 0⟩ : Vector3) ∧
    (scatter sceneP rndW 0 rayW planeW 1 2).1 = (⟨7, 7, 7⟩ : Vector3) := by
  constructor
  · have hls : ∀ (p n : Vector3) (idx : ℕ), lightSum sceneP p n idx = 0 := by
      intro p n idx
      simp [lightSum, sceneP]
    rw [computeColor]
    norm_num [planeW, matW, Primitive.material, hls, Vector3.add,
      Vector3.times, Vector3.mk.injEq, min_def]
  · have hat : rayW.at 1 = (⟨0, 0, 0⟩ : Vector3) := by
      ext <;> norm_num [Ray.at, rayW, Vector3.add, Vector3.times]
    have hdir : ((planeW.normal ⟨0, 0, 0⟩).times (-1)).add (rndW 0) =
        (⟨0, -1, 0⟩ : Vector3) := by
      ext <;> norm_num [Primitive.normal, planeW, rndW, Vector3.add,
        Vector3.times]
    have hmk : mkRay ⟨0, 0, 0⟩ ⟨0, -1, 0⟩ = Ray.mk ⟨0, 0, 0⟩ ⟨0, -1, 0⟩ := by
      rw [mkRay]
      exact congrArg (Ray.mk _) (Vector3.normalize_of_norm_one _
        (by norm_num [Vector3.norm, Vector3.inner, Real.sqrt_one]))
    have hchk : planeW.checkIntersection ((1000 : ℝ)⁻¹)
        (Ray.mk ⟨0, 0, 0⟩ ⟨0, -1, 0⟩) = none := by
      norm_num [Primitive.checkIntersection, planeW, matW,
        planeCheckIntersection, Vector3.inner, Vector3.subtract, Vector3.add,
        Vector3.times]
    have hclosest : closestIntersection sceneP (Ray.mk ⟨0, 0, 0⟩ ⟨0, -1, 0⟩) =
        none := by
      simp [closestIntersection, sceneP, closestIntersectionAux, hchk]
    rw [scatter]
    simp only [hat, hdir, hmk]
    rw [traceRay, hclosest]
    rfl

/-! ## Claim C2: the sphere root ordering is broken by the comma expression -/

lemma sqrt_sixteen : Real.sqrt 16 = 4 := by
  rw [show (16 : ℝ) = 4 ^ 2 by norm_num]
  exact Real.sqrt_sq (by norm_num)

/-- C2 (code evaluation at the failing input): for the unit sphere of
radius 2 centered at the origin and the ray starting inside it at
`(0,0,1)` pointing away from the center in direction `(0,0,1)` (with
`epsilon = 1/1000`), the code returns Infinity (`none`), even though the
ray exits the sphere at distance 1; the routine described by the claim —
with the candidate roots genuinely ordered so that `t0 ≤ t1` — returns
`1`.  The cause is the JS comma expression
`t_0 = Math.min(t_0, t_1), t_1 = Math.max(t_0, t_1)`, whose second
assignment reads the already-overwritten `t_0`, so with `b ≥ 0` both
variables collapse to the smaller root `-3` and the `t_1 ≥ epsilon` gate
rejects the hit. -/
theorem sphere_inside_ray_missed :
    sphereCheckIntersection (1 / 1000) ⟨0, 0, 0⟩ 2
      (mkRay ⟨0, 0, 1⟩ ⟨0, 0, 1⟩) = none ∧
    sphereCheckIntersectionOrdered (1 / 1000) ⟨0, 0, 0⟩ 2
      (mkRay ⟨0, 0, 1⟩ ⟨0, 0, 1⟩) = some 1 := by
  have hmk : mkRay ⟨0, 0, 1⟩ ⟨0, 0, 1⟩ = Ray.mk ⟨0, 0, 1⟩ ⟨0, 0, 1⟩ := by
    rw [mkRay]
    exact congrArg (Ray.mk _) (Vector3.normalize_of_norm_one _
      (by norm_num [Vector3.norm, Vector3.inner, Real.sqrt_one]))
  rw [hmk]
  constructor
  · norm_num [sphereCheckIntersection, Vector3.subtract, Vector3.add,
      Vector3.times, Vector3.inner, sqrt_sixteen, min_def, max_def]
  · norm_num [sphereCheckIntersectionOrdered, Vector3.subtract, Vector3.add,
      Vector3.times, Vector3.inner, sqrt_sixteen, min_def, max_def]

end Craytracer

end
